import Mathlib

/-!
Verification of the LTC handler (`src/src/handlers/LTC/LTCHandler.ts`).

The handler coordinates a send lifecycle: fetch UTXOs, sort them
largest-first, hand them to an external builder, broadcast through a
retry/fallback wrapper, then emit a transaction-hash event, resolve the
outward result and let a background confirmation monitor emit confirmation
events. The helper libraries (`fallback`, `retryNTimes`,
`subscribeToConfirmations`, `PromiEvent`) live outside the given source
tree; they are modelled from the specification document, as marked on each
definition. Everything else is translated directly from `LTCHandler.ts`.

Monetary values are embedded as follows: UTXO amounts (smallest units) are
`Nat`; `BigNumber` decimal values (balances, send values) are `ℚ`, which is
exact, matching the arbitrary-precision decimal arithmetic used by the
source.
-/

/-- Error taxonomy of the spec (§7): provider failure, build failure, the
aggregate of all endpoint failures of one fallback dispatch, and retry
exhaustion wrapping the final error. -/
inductive Err where
  | providerErr (msg : String)
  | buildErr (msg : String)
  | aggregated (errs : List Err)
  | retryExhausted (last : Err)

/-- An unspent transaction output, from `src/lib/utxo` as described by the
spec data model (§3): `amount` is an integer in smallest denomination
units, and is always nonnegative, hence `Nat`. -/
structure UTXO where
  txHash : String
  vOut : Nat
  amount : Nat
  confirmations : Nat
deriving Repr, DecidableEq

/-- Accumulator form of the fallback dispatcher: `acc` holds the failures
recorded so far, most recent first. -/
def fallbackAux (acc : List Err) : List (Except Err α) → Except Err α
  | [] => .error (.aggregated acc.reverse)
  | r :: rest =>
    match r with
    | .ok a => .ok a
    | .error e => fallbackAux (e :: acc) rest

/-- Modelled from the spec: `fallback` from `src/lib/retry` is not under
`src/`. Per §4.1 it invokes the endpoints strictly in order, returns the
first success without invoking later endpoints, records each failure, and
if every endpoint fails it fails with an aggregated error holding all
recorded failures in endpoint order. An endpoint's outcome for this one
dispatch is embedded as an `Except Err α` value. -/
def fallback (endpoints : List (Except Err α)) : Except Err α :=
  fallbackAux [] endpoints

/-- Modelled from the spec: `retryNTimes` from `src/lib/retry` is not under
`src/`. Per §4.2 it invokes the operation up to `maxAttempts` times,
stopping on first success, and if the final attempt fails it fails with a
retry-exhaustion error wrapping only the last underlying error. The
operation's outcome on attempt `k` is `op k`; `i` is the index of the next
attempt. The second component of the result counts the attempts actually
made. -/
def retryRun (op : Nat → Except Err α) : Nat → Nat → Except Err α × Nat
  | _, 0 => (.error (.retryExhausted (.providerErr "no attempts permitted")), 0)
  | i, 1 =>
    match op i with
    | .ok a => (.ok a, 1)
    | .error e => (.error (.retryExhausted e), 1)
  | i, n + 2 =>
    match op i with
    | .ok a => (.ok a, 1)
    | .error _ =>
      let r := retryRun op (i + 1) (n + 1)
      (r.1, r.2 + 1)

/-- Modelled from the spec (§4.2): the value returned by the bounded retry
wrapper, ignoring the attempt count instrumentation. -/
def retryNTimes (op : Nat → Except Err α) (maxAttempts : Nat) : Except Err α :=
  (retryRun op 0 maxAttempts).1

/-- The behaviour of the outside world during one `sendSats` invocation:
the sender's address, the outcome of the single Sochain UTXO-list endpoint,
the builder's outcome as a function of the value and candidate list handed
to it, the broadcast endpoint's outcome per retry attempt, and the
confirmation-lookup endpoint's outcome per monitor tick. -/
structure SendEnv where
  address : String
  fetchUTXOsResult : Except Err (List UTXO)
  buildResult : ℚ → List UTXO → Except Err String
  broadcastResult : String → Nat → Except Err String
  fetchUTXOResult : Nat → Except Err UTXO

/-- Endpoint list `_apiFallbacks.fetchUTXOs` (LTCHandler.ts lines 28-39): a one-element
endpoint list wrapping the Sochain UTXO query. -/
def apiFallbacks_fetchUTXOs (env : SendEnv) : List (Except Err (List UTXO)) :=
  [env.fetchUTXOsResult]

/-- Static `LTCHandler.getUTXOs` (lines 65-86): dispatches the endpoint list
through `fallback`. -/
def getUTXOs (env : SendEnv) : Except Err (List UTXO) :=
  fallback (apiFallbacks_fetchUTXOs env)

/-- Endpoint list `_apiFallbacks.fetchUTXO` (lines 24-26) at monitor tick `t`: a
one-element endpoint list wrapping the Sochain single-UTXO query. -/
def apiFallbacks_fetchUTXO (env : SendEnv) (t : Nat) : List (Except Err UTXO) :=
  [env.fetchUTXOResult t]

/-- Method `_getConfirmations` (lines 240-248): fetches the first output of the
transaction through `fallback` and projects its confirmation count. -/
def getConfirmations (env : SendEnv) (t : Nat) : Except Err Nat :=
  (fallback (apiFallbacks_fetchUTXO env t)).map (fun u => u.confirmations)

/-- Endpoint list `_apiFallbacks.broadcastTransaction` (lines 54-56): a one-element
endpoint list wrapping the Sochain broadcast of the serialized hex; the
endpoint may behave differently on each retry attempt `k`. -/
def apiFallbacks_broadcastTransaction (env : SendEnv) (hex : String) :
    List (Nat → Except Err String) :=
  [env.broadcastResult hex]

/-- The operation handed to the retry wrapper in `sendSats` (lines
213-222): one fallback dispatch of the broadcast endpoint list, at attempt
`k`. -/
def broadcastOp (env : SendEnv) (hex : String) (k : Nat) : Except Err String :=
  fallback ((apiFallbacks_broadcastTransaction env hex).map (fun f => f k))

/-- The broadcast step of `sendSats`: `retryNTimes(() => fallback(...), 3)`. -/
def broadcastOutcome (env : SendEnv) (hex : String) : Except Err String :=
  retryNTimes (broadcastOp env hex) 3

/-- Attempts consumed by the broadcast retry wrapper. -/
def broadcastAttempts (env : SendEnv) (hex : String) : Nat :=
  (retryRun (broadcastOp env hex) 0 3).2

/-- Candidate ordering in `sendSats` (lines 191-199):
`List(utxos).sortBy(u => u.amount).reverse()` — a stable ascending sort by
amount followed by a reversal, i.e. amounts end up in descending order. -/
def sortCandidates (utxos : List UTXO) : List UTXO :=
  (List.insertionSort (fun a b => a.amount ≤ b.amount) utxos).reverse

/-- Method `getBalanceInSats` (lines 148-161) applied to the provider-returned
UTXO list: `utxos.reduce((sum, utxo) => sum.plus(utxo.amount), 0)` — an
exact integer left fold, never floating point. -/
def getBalanceInSats (utxos : List UTXO) : Nat :=
  utxos.foldl (fun sum u => sum + u.amount) 0

/-- Method `getBalance` (lines 140-146) applied to the provider-returned UTXO
list: the smallest-unit sum divided by `10 ^ decimals` with `decimals = 8`,
exactly (the source uses arbitrary-precision decimals, embedded as `ℚ`). -/
def getBalance (utxos : List UTXO) : ℚ :=
  (getBalanceInSats utxos : ℚ) / 10 ^ 8

/-- The argument of `handlesAsset`: in the source an `Asset` is an
arbitrary value; only strings can be handled, so the embedding splits into
string values and everything else. -/
inductive Asset where
  | str (s : String)
  | nonString
deriving Repr, DecidableEq

/-- Model of `asset.toUpperCase()`: upper-cases every character (the asset names
compared against are ASCII, where JS and this model agree). -/
def toUpperCase (s : String) : String :=
  ⟨s.data.map Char.toUpper⟩

/-- Method `handlesAsset` (lines 130-132):
`typeof asset === "string" && ["LTC", "LITECOIN"].indexOf(asset.toUpperCase()) !== -1`.
The `indexOf(...) !== -1` idiom is list membership. The function is total:
it never throws. -/
def handlesAsset : Asset → Bool
  | .str s => ["LTC", "LITECOIN"].contains (toUpperCase s)
  | .nonString => false

/-- The mutable record shared by the lifecycle task and the monitor
(`let txHash; let errored;` in `sendSats`, plus the monitor's latest
count). The lifecycle task is the only writer of `txHash` and `errored`;
the monitor only writes `confirmationCount`. -/
structure Handle where
  txHash : Option String
  errored : Bool
  confirmationCount : Nat
deriving Repr, DecidableEq

/-- Handle state when `sendSats` starts: no hash, not errored. -/
def initHandle : Handle :=
  { txHash := none, errored := false, confirmationCount := 0 }

/-- Observable actions of one `sendSats` invocation, in order of
occurrence. `subscribed` marks the synchronous `subscribeToConfirmations`
registration and records the handle's `txHash` at that moment;
`buildRequested` marks the hand-over of the value and candidate list to the
external builder; `transactionHash` and `confirmation` are the two events
emitted on the returned handle; `resolved`/`rejected` mark the settlement
of the outward-facing result. -/
inductive Ev where
  | subscribed (txHashAtSubscribe : Option String)
  | buildRequested (valueSats : ℚ) (candidates : List UTXO)
  | transactionHash (h : String)
  | confirmation (n : Nat)
  | resolved (h : String)
  | rejected (e : Err)

/-- Whether an action is a `"confirmation"` event. -/
def Ev.isConfirmation : Ev → Bool
  | .confirmation _ => true
  | _ => false

/-- Whether an action is a `"transactionHash"` event. -/
def Ev.isTransactionHash : Ev → Bool
  | .transactionHash _ => true
  | _ => false

/-- Modelled from the spec: one tick of the confirmation monitor
(`subscribeToConfirmations` from `src/lib/confirmations` is not under
`src/`). Per §4.5: if the monitor has stopped it stays stopped with no
event; if `errored` is set it stops permanently with no event; it starts
only after a transaction hash exists, so with no hash it emits nothing;
otherwise it queries the confirmation count and emits a `"confirmation"`
event with the latest count, and a query failure is swallowed (no event,
no propagation). -/
def monitorTick (h : Handle) (stopped : Bool) (fetched : Except Err Nat) :
    Bool × Handle × List Ev :=
  if stopped then (true, h, [])
  else if h.errored then (true, h, [])
  else
    match h.txHash with
    | none => (false, h, [])
    | some _ =>
      match fetched with
      | .ok n => (false, { h with confirmationCount := n }, [Ev.confirmation n])
      | .error _ => (false, h, [])

/-- Runs `k` consecutive monitor ticks, the first at global tick index `i`,
threading the stopped flag and the handle; returns the final stopped flag,
the final handle and the emitted events in order. -/
def runTicks (f : Nat → Except Err Nat) :
    Nat → Nat → Bool → Handle → Bool × Handle × List Ev
  | _, 0, st, h => (st, h, [])
  | i, k + 1, st, h =>
    let r := monitorTick h st (f i)
    let rest := runTicks f (i + 1) k r.1 r.2.1
    (rest.1, rest.2.1, r.2.2 ++ rest.2.2)

/-- A schedule of the cooperative interleaving: how many monitor ticks fire
during each of the lifecycle task's four suspension points (the address
lookup, the UTXO fetch, the build, the broadcast) and how many fire after
the lifecycle task has finished. The source fixes no particular
interleaving, so the theorems quantify over all schedules. -/
structure Sched where
  g0 : Nat
  g1 : Nat
  g2 : Nat
  g3 : Nat
  post : Nat
deriving Repr, DecidableEq

/-- The trace semantics of `sendSats` (lines 177-238). In source order:
the promi-event is created and the async lifecycle task starts, suspending
at its first await; `subscribeToConfirmations` is registered synchronously
(while the handle still has no hash); the lifecycle then resolves the
address, fetches UTXOs through `fallback`, sorts them descending, hands
value and candidates to the external builder, broadcasts the built hex via
`retryNTimes(fallback, 3)`, and on success sets `txHash`, emits the
`"transactionHash"` event and resolves — these three happen with no
suspension between them. Any failure of a step sets `errored := true` and
rejects with that step's error. Monitor ticks fire at the suspension
points according to the schedule. Returns the trace and the final handle. -/
def runSendSats (env : SendEnv) (s : Sched) (valueIn : ℚ) : List Ev × Handle :=
  let f := getConfirmations env
  let t1 := runTicks f 0 s.g0 false initHandle
  let t2 := runTicks f s.g0 s.g1 t1.1 t1.2.1
  match getUTXOs env with
  | .error e =>
    let hE := { t2.2.1 with errored := true }
    let tF := runTicks f (s.g0 + s.g1) (s.g2 + s.g3 + s.post) t2.1 hE
    (Ev.subscribed initHandle.txHash :: t1.2.2 ++ t2.2.2 ++ Ev.rejected e :: tF.2.2,
     tF.2.1)
  | .ok utxos =>
    let cands := sortCandidates utxos
    let t3 := runTicks f (s.g0 + s.g1) s.g2 t2.1 t2.2.1
    match env.buildResult valueIn cands with
    | .error e =>
      let hE := { t3.2.1 with errored := true }
      let tF := runTicks f (s.g0 + s.g1 + s.g2) (s.g3 + s.post) t3.1 hE
      (Ev.subscribed initHandle.txHash :: t1.2.2 ++ t2.2.2 ++
        Ev.buildRequested valueIn cands :: t3.2.2 ++ Ev.rejected e :: tF.2.2,
       tF.2.1)
    | .ok hex =>
      let t4 := runTicks f (s.g0 + s.g1 + s.g2) s.g3 t3.1 t3.2.1
      match broadcastOutcome env hex with
      | .error e =>
        let hE := { t4.2.1 with errored := true }
        let tF := runTicks f (s.g0 + s.g1 + s.g2 + s.g3) s.post t4.1 hE
        (Ev.subscribed initHandle.txHash :: t1.2.2 ++ t2.2.2 ++
          Ev.buildRequested valueIn cands :: t3.2.2 ++ t4.2.2 ++
          Ev.rejected e :: tF.2.2,
         tF.2.1)
      | .ok hash =>
        let hB := { t4.2.1 with txHash := some hash }
        let tF := runTicks f (s.g0 + s.g1 + s.g2 + s.g3) s.post t4.1 hB
        (Ev.subscribed initHandle.txHash :: t1.2.2 ++ t2.2.2 ++
          Ev.buildRequested valueIn cands :: t3.2.2 ++ t4.2.2 ++
          Ev.transactionHash hash :: Ev.resolved hash :: tF.2.2,
         tF.2.1)

/-- Method `send` (lines 164-175): scales the human-decimal value by
`10 ^ decimals` (with `decimals = 8`) and delegates to `sendSats`. -/
def runSend (env : SendEnv) (s : Sched) (value : ℚ) : List Ev × Handle :=
  runSendSats env s (value * 10 ^ 8)

/-- Handle state after a failed lifecycle: no hash, errored. -/
def erroredHandle : Handle :=
  { txHash := none, errored := true, confirmationCount := 0 }

/-- Handle state right after a successful broadcast. -/
def postHandle (hash : String) : Handle :=
  { txHash := some hash, errored := false, confirmationCount := 0 }

/-- The events emitted by the monitor ticks that follow a successful
broadcast of hash `hash`. -/
def postTickEvents (env : SendEnv) (s : Sched) (hash : String) : List Ev :=
  (runTicks (getConfirmations env) (s.g0 + s.g1 + s.g2 + s.g3) s.post false
    (postHandle hash)).2.2

/-- The final handle after the monitor ticks that follow a successful
broadcast of hash `hash`. -/
def postTickHandle (env : SendEnv) (s : Sched) (hash : String) : Handle :=
  (runTicks (getConfirmations env) (s.g0 + s.g1 + s.g2 + s.g3) s.post false
    (postHandle hash)).2.1

instance : IsTotal UTXO (fun a b => a.amount ≤ b.amount) :=
  ⟨fun a b => Nat.le_total a.amount b.amount⟩

instance : IsTrans UTXO (fun a b => a.amount ≤ b.amount) :=
  ⟨fun _ _ _ hab hbc => Nat.le_trans hab hbc⟩

/-- The UTXO set used by the spec's worked example (§8, properties 4-5):
amounts 500000000, 300000000, 1000000000, 100000000 in provider order. -/
def sampleUTXOs : List UTXO :=
  [⟨"u1", 0, 500000000, 6⟩, ⟨"u2", 1, 300000000, 6⟩,
   ⟨"u3", 0, 1000000000, 6⟩, ⟨"u4", 2, 100000000, 6⟩]

/-- The same UTXO set in a different provider order. -/
def sampleUTXOsShuffled : List UTXO :=
  [⟨"u3", 0, 1000000000, 6⟩, ⟨"u4", 2, 100000000, 6⟩,
   ⟨"u1", 0, 500000000, 6⟩, ⟨"u2", 1, 300000000, 6⟩]

/-- A fully successful environment: the provider returns the sample UTXO
set, the builder yields hex `"builthex"`, broadcasting acknowledges with
hash `"txhash1"`, and every confirmation lookup reports depth 2. -/
def sampleEnv : SendEnv :=
  { address := "ltcaddr"
  , fetchUTXOsResult := .ok sampleUTXOs
  , buildResult := fun _ _ => .ok "builthex"
  , broadcastResult := fun _ _ => .ok "txhash1"
  , fetchUTXOResult := fun _ => .ok ⟨"txhash1", 0, 0, 2⟩ }

/-- Environment `sampleEnv` with a builder that rejects (insufficient funds). -/
def sampleEnvBuildFail : SendEnv :=
  { sampleEnv with buildResult := fun _ _ => .error (.buildErr "insufficient funds") }

/-- A schedule with one monitor tick during every lifecycle suspension and
two ticks after the lifecycle finishes. -/
def sampleSched : Sched := ⟨1, 1, 1, 1, 2⟩

/-- Number of `"transactionHash"` events in a trace. -/
def countTransactionHash (t : List Ev) : Nat :=
  t.countP Ev.isTransactionHash

theorem monitorTick_noStart (h : Handle) (st : Bool) (x : Except Err Nat)
    (h1 : h.txHash = none) (h2 : h.errored = false) :
    monitorTick h st x = (st, h, []) := by
  cases st <;> simp [monitorTick, h1, h2]

theorem monitorTick_silenced (h : Handle) (st : Bool) (x : Except Err Nat)
    (h2 : h.errored = true) :
    monitorTick h st x = (true, h, []) := by
  cases st <;> simp [monitorTick, h2]

/-- While the handle has no hash and no error, monitor ticks change nothing
and emit nothing: the monitor has not started. -/
theorem runTicks_noStart (f : Nat → Except Err Nat) :
    ∀ (k i : Nat) (st : Bool) (h : Handle), h.txHash = none → h.errored = false →
      runTicks f i k st h = (st, h, []) := by
  intro k
  induction k with
  | zero => intro i st h _ _; rfl
  | succ m ih =>
    intro i st h h1 h2
    simp [runTicks, monitorTick_noStart h st (f i) h1 h2, ih (i + 1) st h h1 h2]

/-- Once the handle is errored, monitor ticks change nothing and emit
nothing: the errored flag silences the monitor permanently. -/
theorem runTicks_silenced (f : Nat → Except Err Nat) :
    ∀ (k i : Nat) (st : Bool) (h : Handle), h.errored = true →
      (runTicks f i k st h).2.1 = h ∧ (runTicks f i k st h).2.2 = [] := by
  intro k
  induction k with
  | zero => intro i st h _; exact ⟨rfl, rfl⟩
  | succ m ih =>
    intro i st h h2
    simp [runTicks, monitorTick_silenced h st (f i) h2, ih (i + 1) true h h2]

/-- A single monitor tick emits nothing but `"confirmation"` events. -/
theorem monitorTick_onlyConf (h : Handle) (st : Bool) (x : Except Err Nat) :
    ∀ e ∈ (monitorTick h st x).2.2, e.isConfirmation = true := by
  intro e he
  obtain ⟨tx, er, cc⟩ := h
  cases st <;> cases er <;> cases tx <;> cases x <;>
    simp_all [monitorTick, Ev.isConfirmation]

/-- Monitor ticks emit nothing but `"confirmation"` events. -/
theorem runTicks_onlyConf (f : Nat → Except Err Nat) :
    ∀ (k i : Nat) (st : Bool) (h : Handle),
      ∀ e ∈ (runTicks f i k st h).2.2, e.isConfirmation = true := by
  intro k
  induction k with
  | zero => intro i st h e he; simp [runTicks] at he
  | succ m ih =>
    intro i st h e he
    simp only [runTicks, List.mem_append] at he
    rcases he with h1 | h2
    · exact monitorTick_onlyConf h st (f i) e h1
    · exact ih _ _ _ e h2

/-- Shape of the run when the UTXO fetch fails: the subscription marker,
then a rejection carrying exactly the fetch error; no other action, and
the final handle is errored with no hash. -/
theorem runSendSats_utxoErr (env : SendEnv) (s : Sched) (v : ℚ) (e : Err)
    (hU : getUTXOs env = .error e) :
    runSendSats env s v = ([Ev.subscribed none, Ev.rejected e], erroredHandle) := by
  simp [runSendSats, hU, runTicks_noStart, runTicks_silenced, initHandle,
    erroredHandle]

/-- Shape of the run when the external builder fails: subscription marker,
build hand-over, then a rejection carrying exactly the build error. -/
theorem runSendSats_buildErr (env : SendEnv) (s : Sched) (v : ℚ)
    (utxos : List UTXO) (e : Err)
    (hU : getUTXOs env = .ok utxos)
    (hB : env.buildResult v (sortCandidates utxos) = .error e) :
    runSendSats env s v =
      ([Ev.subscribed none, Ev.buildRequested v (sortCandidates utxos),
        Ev.rejected e], erroredHandle) := by
  simp [runSendSats, hU, hB, runTicks_noStart, runTicks_silenced, initHandle,
    erroredHandle]

/-- Shape of the run when broadcasting fails after retries: subscription
marker, build hand-over, then a rejection carrying exactly the error
produced by the retry wrapper. -/
theorem runSendSats_broadcastErr (env : SendEnv) (s : Sched) (v : ℚ)
    (utxos : List UTXO) (hex : String) (e : Err)
    (hU : getUTXOs env = .ok utxos)
    (hB : env.buildResult v (sortCandidates utxos) = .ok hex)
    (hBr : broadcastOutcome env hex = .error e) :
    runSendSats env s v =
      ([Ev.subscribed none, Ev.buildRequested v (sortCandidates utxos),
        Ev.rejected e], erroredHandle) := by
  simp [runSendSats, hU, hB, hBr, runTicks_noStart, runTicks_silenced, initHandle,
    erroredHandle]

/-- Shape of a successful run: subscription marker, build hand-over, the
`"transactionHash"` event immediately followed by the resolution, then
whatever the post-broadcast monitor ticks emit. -/
theorem runSendSats_success (env : SendEnv) (s : Sched) (v : ℚ)
    (utxos : List UTXO) (hex hash : String)
    (hU : getUTXOs env = .ok utxos)
    (hB : env.buildResult v (sortCandidates utxos) = .ok hex)
    (hBr : broadcastOutcome env hex = .ok hash) :
    runSendSats env s v =
      (Ev.subscribed none :: Ev.buildRequested v (sortCandidates utxos) ::
        Ev.transactionHash hash :: Ev.resolved hash :: postTickEvents env s hash,
       postTickHandle env s hash) := by
  simp [runSendSats, hU, hB, hBr, runTicks_noStart, initHandle, postTickEvents,
    postTickHandle, postHandle]

/-- The left fold used by `getBalanceInSats`, related to the mapped sum. -/
theorem foldl_amount (l : List UTXO) (n : Nat) :
    l.foldl (fun sum u => sum + u.amount) n = n + (l.map (fun u => u.amount)).sum := by
  induction l generalizing n with
  | nil => simp
  | cons x xs ih => simp [ih, Nat.add_assoc]

/-- The smallest-unit balance is the exact sum of the amounts. -/
theorem getBalanceInSats_eq_sum (utxos : List UTXO) :
    getBalanceInSats utxos = (utxos.map (fun u => u.amount)).sum := by
  simpa using foldl_amount utxos 0

/-- C5: the candidate list handed to the external builder is the fetched
UTXO list sorted by amount in descending order — it is a permutation of
the input whose amounts are pairwise non-increasing — and on the spec's
worked example the amounts come out as
`[1000000000, 500000000, 300000000, 100000000]`. `sortCandidates` is
exactly the list `runSendSats` hands to `env.buildResult`. -/
theorem sortCandidates_descending_perm :
    (∀ utxos : List UTXO,
      (sortCandidates utxos).Perm utxos ∧
      (sortCandidates utxos).Pairwise (fun a b => b.amount ≤ a.amount)) ∧
    (sortCandidates sampleUTXOs).map (fun u => u.amount) =
      [1000000000, 500000000, 300000000, 100000000] := by
  constructor
  · intro utxos
    constructor
    · exact (List.reverse_perm _).trans (List.perm_insertionSort _ utxos)
    · exact List.pairwise_reverse.2 (List.sorted_insertionSort _ utxos)
  · decide

/-- C6: the balance is the exact integer sum of the UTXO amounts, formed
in smallest-unit integer space, and `getBalance` is exactly that sum
divided by `10 ^ 8` — the division is exact (multiplying back by `10 ^ 8`
recovers the integer sum), so the 8-fractional-digit conversion happens
only at the public boundary and loses nothing. -/
theorem getBalance_exact_decimal (utxos : List UTXO) :
    getBalanceInSats utxos = (utxos.map (fun u => u.amount)).sum ∧
    getBalance utxos = (((utxos.map (fun u => u.amount)).sum : ℕ) : ℚ) / 10 ^ 8 ∧
    getBalance utxos * 10 ^ 8 = (getBalanceInSats utxos : ℚ) := by
  refine ⟨getBalanceInSats_eq_sum utxos, ?_, ?_⟩
  · rw [getBalance, getBalanceInSats_eq_sum]
  · rw [getBalance]
    exact div_mul_cancel₀ _ (by norm_num)

/-- C7: the smallest-unit balance is independent of the provider's UTXO
order — permuted inputs give the same sum — and the spec's worked example
sums to 1900000000. -/
theorem getBalanceInSats_perm_invariant :
    (∀ l₁ l₂ : List UTXO, l₁.Perm l₂ → getBalanceInSats l₁ = getBalanceInSats l₂) ∧
    getBalanceInSats sampleUTXOs = 1900000000 ∧
    getBalanceInSats sampleUTXOsShuffled = 1900000000 := by
  refine ⟨?_, by decide, by decide⟩
  intro l₁ l₂ h
  rw [getBalanceInSats_eq_sum, getBalanceInSats_eq_sum]
  exact (h.map (fun u => u.amount)).sum_eq

/-- Witness for C7 at concrete inputs: the two sample orders are a
permutation of each other and get equal balances. -/
theorem getBalanceInSats_perm_invariant_witness :
    getBalanceInSats sampleUTXOs = getBalanceInSats sampleUTXOsShuffled :=
  getBalanceInSats_perm_invariant.1 sampleUTXOs sampleUTXOsShuffled (by decide)

/-- The retry wrapper never makes more attempts than permitted. -/
theorem retryRun_attempts_le (op : Nat → Except Err α) :
    ∀ (n i : Nat), (retryRun op i n).2 ≤ n := by
  intro n
  induction n with
  | zero => intro i; simp [retryRun]
  | succ m ih =>
    intro i
    cases m with
    | zero => cases hop : op i <;> simp [retryRun, hop]
    | succ k =>
      cases hop : op i with
      | ok a => simp [retryRun, hop]
      | error e =>
        have h := ih (i + 1)
        simp only [retryRun, hop]
        omega

theorem conf_not_txHash (e : Ev) (h : e.isConfirmation = true) :
    e.isTransactionHash = false := by
  cases e <;> simp_all [Ev.isConfirmation, Ev.isTransactionHash]

/-- No `"transactionHash"` event is ever emitted by monitor ticks. -/
theorem countTransactionHash_postTicks (env : SendEnv) (s : Sched) (hash : String) :
    (postTickEvents env s hash).countP Ev.isTransactionHash = 0 := by
  rw [List.countP_eq_zero]
  intro e he
  have hc := runTicks_onlyConf (getConfirmations env) s.post
    (s.g0 + s.g1 + s.g2 + s.g3) false (postHandle hash) e he
  simp [conf_not_txHash e hc]

/-- C9: whenever a send reaches the broadcasting step (UTXO fetch and
build succeeded), the submission is exactly the retry wrapper applied to
the fallback dispatch of the broadcast endpoint sequence with an attempt
ceiling of 3; at most 3 attempts are made, and the run's hash event or
rejection carries precisely the outcome of that dispatch. -/
theorem broadcast_via_retry_fallback (env : SendEnv) (s : Sched) (v : ℚ)
    (utxos : List UTXO) (hex : String)
    (hU : getUTXOs env = .ok utxos)
    (hB : env.buildResult v (sortCandidates utxos) = .ok hex) :
    broadcastOutcome env hex =
      retryNTimes
        (fun k => fallback
          ((apiFallbacks_broadcastTransaction env hex).map (fun f => f k))) 3 ∧
    broadcastAttempts env hex ≤ 3 ∧
    (∀ hash, broadcastOutcome env hex = .ok hash →
      Ev.transactionHash hash ∈ (runSendSats env s v).1) ∧
    (∀ e, broadcastOutcome env hex = .error e →
      Ev.rejected e ∈ (runSendSats env s v).1) := by
  refine ⟨rfl, retryRun_attempts_le (broadcastOp env hex) 3 0, ?_, ?_⟩
  · intro hash hBr
    rw [runSendSats_success env s v utxos hex hash hU hB hBr]
    simp
  · intro e hBr
    rw [runSendSats_broadcastErr env s v utxos hex e hU hB hBr]
    simp

/-- Witness for C9 at a concrete successful environment. -/
theorem broadcast_via_retry_fallback_witness :
    broadcastAttempts sampleEnv "builthex" ≤ 3 ∧
    Ev.transactionHash "txhash1" ∈ (runSendSats sampleEnv sampleSched 1).1 := by
  have h := broadcast_via_retry_fallback sampleEnv sampleSched 1 sampleUTXOs
    "builthex" rfl rfl
  exact ⟨h.2.1, h.2.2.1 "txhash1" rfl⟩

/-- C10: `handlesAsset` yields true exactly for string assets whose
upper-cased form is `"LTC"` or `"LITECOIN"`; non-strings and other strings
yield false. The embedding is a total function, so the check cannot
throw. -/
theorem handlesAsset_characterization :
    (∀ a : Asset, handlesAsset a = true ↔
      ∃ s, a = .str s ∧ (toUpperCase s = "LTC" ∨ toUpperCase s = "LITECOIN")) ∧
    handlesAsset (.str "ltc") = true ∧
    handlesAsset (.str "Litecoin") = true ∧
    handlesAsset (.str "ltc2") = false ∧
    handlesAsset (.str "BTC") = false ∧
    handlesAsset .nonString = false := by
  refine ⟨?_, by decide, by decide, by decide, by decide, rfl⟩
  intro a
  cases a with
  | str s => simp [handlesAsset]
  | nonString => simp [handlesAsset]

/-- Witness for C10 at a concrete input. -/
theorem handlesAsset_characterization_witness :
    handlesAsset (.str "LTC") = true :=
  (handlesAsset_characterization.1 (.str "LTC")).2 ⟨"LTC", rfl, Or.inl (by decide)⟩

/-- C1: in every run whose broadcast succeeds, the `"transactionHash"`
event and the resolution of the outward result both occur strictly before
every `"confirmation"` event: the trace splits into a confirmation-free
prefix, the hash event immediately followed by the resolution, and a
suffix containing all the confirmation events. -/
theorem sendSats_hash_resolution_precede_confirmations (env : SendEnv)
    (s : Sched) (v : ℚ) (utxos : List UTXO) (hex hash : String)
    (hU : getUTXOs env = .ok utxos)
    (hB : env.buildResult v (sortCandidates utxos) = .ok hex)
    (hBr : broadcastOutcome env hex = .ok hash) :
    ∃ pre post, (runSendSats env s v).1 =
        pre ++ Ev.transactionHash hash :: Ev.resolved hash :: post ∧
      (∀ e ∈ pre, e.isConfirmation = false) ∧
      (∀ e ∈ post, e.isConfirmation = true) := by
  refine ⟨[Ev.subscribed none, Ev.buildRequested v (sortCandidates utxos)],
    postTickEvents env s hash, ?_, ?_, ?_⟩
  · rw [runSendSats_success env s v utxos hex hash hU hB hBr]
    rfl
  · intro e he
    simp only [List.mem_cons, List.not_mem_nil, or_false] at he
    rcases he with rfl | rfl <;> rfl
  · intro e he
    exact runTicks_onlyConf (getConfirmations env) s.post
      (s.g0 + s.g1 + s.g2 + s.g3) false (postHandle hash) e he

/-- Witness for C1 at a concrete successful run. -/
theorem sendSats_hash_resolution_precede_confirmations_witness :
    ∃ pre post, (runSendSats sampleEnv sampleSched 1).1 =
        pre ++ Ev.transactionHash "txhash1" :: Ev.resolved "txhash1" :: post ∧
      (∀ e ∈ pre, e.isConfirmation = false) ∧
      (∀ e ∈ post, e.isConfirmation = true) :=
  sendSats_hash_resolution_precede_confirmations sampleEnv sampleSched 1
    sampleUTXOs "builthex" "txhash1" rfl rfl rfl

/-- Counterexample to C2 as stated: not every invocation emits a
`"transactionHash"` event. In the environment whose builder rejects with
insufficient funds, the run emits zero such events (it rejects instead). -/
theorem sendSats_not_always_one_hashEvent :
    ¬ ∀ (env : SendEnv) (s : Sched) (v : ℚ),
        countTransactionHash (runSendSats env s v).1 = 1 := by
  intro hAll
  have h := hAll sampleEnvBuildFail sampleSched 1
  rw [runSendSats_buildErr sampleEnvBuildFail sampleSched 1 sampleUTXOs
    (.buildErr "insufficient funds") rfl rfl] at h
  simp [countTransactionHash, Ev.isTransactionHash, List.countP_cons] at h

/-- C2 (amended): every invocation whose broadcast succeeds emits exactly
one `"transactionHash"` event, and that emission occurs before the outward
result is resolved with the same hash. -/
theorem sendSats_one_hashEvent_on_success (env : SendEnv) (s : Sched) (v : ℚ)
    (utxos : List UTXO) (hex hash : String)
    (hU : getUTXOs env = .ok utxos)
    (hB : env.buildResult v (sortCandidates utxos) = .ok hex)
    (hBr : broadcastOutcome env hex = .ok hash) :
    countTransactionHash (runSendSats env s v).1 = 1 ∧
    ∃ pre post, (runSendSats env s v).1 =
      pre ++ Ev.transactionHash hash :: Ev.resolved hash :: post := by
  rw [runSendSats_success env s v utxos hex hash hU hB hBr]
  constructor
  · simp [countTransactionHash, List.countP_cons, Ev.isTransactionHash,
      countTransactionHash_postTicks env s hash]
  · exact ⟨[Ev.subscribed none, Ev.buildRequested v (sortCandidates utxos)],
      postTickEvents env s hash, rfl⟩

/-- Witness for the amended C2 at a concrete successful run. -/
theorem sendSats_one_hashEvent_on_success_witness :
    countTransactionHash (runSendSats sampleEnv sampleSched 1).1 = 1 ∧
    ∃ pre post, (runSendSats sampleEnv sampleSched 1).1 =
      pre ++ Ev.transactionHash "txhash1" :: Ev.resolved "txhash1" :: post :=
  sendSats_one_hashEvent_on_success sampleEnv sampleSched 1 sampleUTXOs
    "builthex" "txhash1" rfl rfl rfl

/-- Counterexample to C3 as stated: the monitor subscription is not
registered only after a hash exists. In a concrete successful run the very
first action of the trace is the subscription registration, made while the
handle's `txHash` was still `none` (the marker records the handle's
`txHash` at registration time), and the `"transactionHash"` event appears
only later in the same trace. -/
theorem subscription_precedes_hash :
    (runSendSats sampleEnv sampleSched 1).1.head? = some (Ev.subscribed none) ∧
    Ev.transactionHash "txhash1" ∈ (runSendSats sampleEnv sampleSched 1).1 := by
  rw [runSendSats_success sampleEnv sampleSched 1 sampleUTXOs "builthex"
    "txhash1" rfl rfl rfl]
  exact ⟨rfl, by simp⟩

/-- C3 (amended): the subscription is registered synchronously when
`sendSats` is invoked — before any transaction hash exists — but no
confirmation event is emitted while `txHash` is unset: every confirmation
event lies strictly after a `"transactionHash"` event in the trace. -/
theorem subscription_timing_amended (env : SendEnv) (s : Sched) (v : ℚ) :
    (runSendSats env s v).1.head? = some (Ev.subscribed none) ∧
    ∀ n, Ev.confirmation n ∈ (runSendSats env s v).1 →
      ∃ hash pre post, (runSendSats env s v).1 =
          pre ++ Ev.transactionHash hash :: post ∧
        Ev.confirmation n ∈ post := by
  rcases hU : getUTXOs env with e | utxos
  · rw [runSendSats_utxoErr env s v e hU]
    refine ⟨rfl, ?_⟩
    intro n hn
    simp at hn
  · rcases hB : env.buildResult v (sortCandidates utxos) with e | hex
    · rw [runSendSats_buildErr env s v utxos e hU hB]
      refine ⟨rfl, ?_⟩
      intro n hn
      simp at hn
    · rcases hBr : broadcastOutcome env hex with e | hash
      · rw [runSendSats_broadcastErr env s v utxos hex e hU hB hBr]
        refine ⟨rfl, ?_⟩
        intro n hn
        simp at hn
      · rw [runSendSats_success env s v utxos hex hash hU hB hBr]
        refine ⟨rfl, ?_⟩
        intro n hn
        simp only [List.mem_cons] at hn
        rcases hn with h | h | h | h | h
        all_goals first
          | (exact absurd h (by simp))
          | (exact ⟨hash, [Ev.subscribed none,
              Ev.buildRequested v (sortCandidates utxos)],
              Ev.resolved hash :: postTickEvents env s hash, rfl,
              List.mem_cons_of_mem _ h⟩)

/-- Witness for the amended C3 at a concrete run in which confirmation
events do occur. -/
theorem subscription_timing_amended_witness :
    ∃ hash pre post, (runSendSats sampleEnv sampleSched 1).1 =
        pre ++ Ev.transactionHash hash :: post ∧
      Ev.confirmation 2 ∈ post := by
  have hmem : Ev.confirmation 2 ∈ (runSendSats sampleEnv sampleSched 1).1 := by
    rw [runSendSats_success sampleEnv sampleSched 1 sampleUTXOs "builthex"
      "txhash1" rfl rfl rfl]
    have hpost : postTickEvents sampleEnv sampleSched "txhash1" =
        [Ev.confirmation 2, Ev.confirmation 2] := rfl
    simp [hpost]
  exact (subscription_timing_amended sampleEnv sampleSched 1).2 2 hmem

/-- C4: whichever step of the lifecycle fails — UTXO fetch, build, or
broadcast — the run sets the errored flag (`erroredHandle.errored = true`),
rejects the outward result with exactly the failing step's error, and its
trace contains no `"confirmation"` event at all (the errored flag, and the
absence of a hash, silence the monitor). -/
theorem sendSats_failure_semantics (env : SendEnv) (s : Sched) (v : ℚ) :
    erroredHandle.errored = true ∧
    (∀ e, getUTXOs env = .error e →
      runSendSats env s v = ([Ev.subscribed none, Ev.rejected e], erroredHandle)) ∧
    (∀ utxos e, getUTXOs env = .ok utxos →
      env.buildResult v (sortCandidates utxos) = .error e →
      runSendSats env s v =
        ([Ev.subscribed none, Ev.buildRequested v (sortCandidates utxos),
          Ev.rejected e], erroredHandle)) ∧
    (∀ utxos hex e, getUTXOs env = .ok utxos →
      env.buildResult v (sortCandidates utxos) = .ok hex →
      broadcastOutcome env hex = .error e →
      runSendSats env s v =
        ([Ev.subscribed none, Ev.buildRequested v (sortCandidates utxos),
          Ev.rejected e], erroredHandle)) :=
  ⟨rfl,
   fun e hU => runSendSats_utxoErr env s v e hU,
   fun utxos e hU hB => runSendSats_buildErr env s v utxos e hU hB,
   fun utxos hex e hU hB hBr => runSendSats_broadcastErr env s v utxos hex e hU hB hBr⟩

/-- Witness for C4 at the concrete failing-builder environment. -/
theorem sendSats_failure_semantics_witness :
    runSendSats sampleEnvBuildFail sampleSched 1 =
      ([Ev.subscribed none, Ev.buildRequested 1 (sortCandidates sampleUTXOs),
        Ev.rejected (.buildErr "insufficient funds")], erroredHandle) :=
  (sendSats_failure_semantics sampleEnvBuildFail sampleSched 1).2.2.1
    sampleUTXOs (.buildErr "insufficient funds") rfl rfl

/-- Every build hand-over in a run of `sendSats` carries exactly the value
the invocation received and exactly the sorted candidates of the fetched
UTXO set. -/
theorem buildRequested_inv (env : SendEnv) (s : Sched) (v : ℚ) :
    ∀ x c, Ev.buildRequested x c ∈ (runSendSats env s v).1 →
      x = v ∧ ∃ utxos, getUTXOs env = .ok utxos ∧ c = sortCandidates utxos := by
  intro x c hmem
  rcases hU : getUTXOs env with e | utxos
  · rw [runSendSats_utxoErr env s v e hU] at hmem
    simp at hmem
  · rcases hB : env.buildResult v (sortCandidates utxos) with e | hex
    · rw [runSendSats_buildErr env s v utxos e hU hB] at hmem
      simp at hmem
      exact ⟨hmem.1, utxos, rfl, hmem.2⟩
    · rcases hBr : broadcastOutcome env hex with e | hash
      · rw [runSendSats_broadcastErr env s v utxos hex e hU hB hBr] at hmem
        simp at hmem
        exact ⟨hmem.1, utxos, rfl, hmem.2⟩
      · rw [runSendSats_success env s v utxos hex hash hU hB hBr] at hmem
        simp at hmem
        rcases hmem with ⟨h1, h2⟩ | hpost
        · exact ⟨h1, utxos, rfl, h2⟩
        · exfalso
          have hc := runTicks_onlyConf (getConfirmations env) s.post
            (s.g0 + s.g1 + s.g2 + s.g3) false (postHandle hash) _ hpost
          simp [Ev.isConfirmation] at hc

/-- C8: `send` delegates to `sendSats` with the value scaled by exactly
`10 ^ 8`, and the quantity handed downstream to the builder is exactly
that smallest-unit integer-scaled value — no other conversion happens
inside selection, building or dispatch. -/
theorem send_converts_at_boundary (env : SendEnv) (s : Sched) (value : ℚ) :
    runSend env s value = runSendSats env s (value * 10 ^ 8) ∧
    ∀ x c, Ev.buildRequested x c ∈ (runSend env s value).1 →
      x = value * 10 ^ 8 := by
  refine ⟨rfl, ?_⟩
  intro x c h
  exact (buildRequested_inv env s (value * 10 ^ 8) x c h).1

/-- Witness for C8 at a concrete run: the build hand-over of `send 3`
carries `3 * 10 ^ 8` smallest units. -/
theorem send_converts_at_boundary_witness :
    Ev.buildRequested ((3 : ℚ) * 10 ^ 8) (sortCandidates sampleUTXOs) ∈
      (runSend sampleEnv sampleSched 3).1 ∧
    (3 : ℚ) * 10 ^ 8 = 3 * 10 ^ 8 := by
  have hmem : Ev.buildRequested ((3 : ℚ) * 10 ^ 8) (sortCandidates sampleUTXOs) ∈
      (runSend sampleEnv sampleSched 3).1 := by
    rw [show runSend sampleEnv sampleSched 3 =
          runSendSats sampleEnv sampleSched ((3 : ℚ) * 10 ^ 8) from rfl,
      runSendSats_success sampleEnv sampleSched ((3 : ℚ) * 10 ^ 8) sampleUTXOs
        "builthex" "txhash1" rfl rfl rfl]
    simp
  exact ⟨hmem, (send_converts_at_boundary sampleEnv sampleSched 3).2 _ _ hmem⟩
